import Mathlib

/-!
Verification development for the netcdf-c metadata catalog
(src/unnamed/part_000 = the NCindex/listmap code, src/libsrc4/nc4attr.c =
the attribute subsystem).  The C code is shallowly embedded: each C
function relevant to the claims is translated to an executable Lean
definition over explicit state.  Machine integers are modelled as Int
with explicit range bounds; fallible code returns discriminated results
carrying the netcdf status codes.  Code of the repository that is not
present under src/ (nclist.c, nchashmap.c, nc4_convert_type,
nc4_att_list_add/del, the reserved-attribute table) is modelled from the
spec; every such definition says so in its doc comment.
-/

namespace Netcdf

/-! ## netcdf status codes (netcdf.h values) -/

def NC_NOERR : Int := 0
def NC_EINVAL : Int := -36
def NC_EPERM : Int := -37
def NC_ENOTINDEFINE : Int := -38
def NC_EINDEFINE : Int := -39
def NC_ENAMEINUSE : Int := -42
def NC_ENOTATT : Int := -43
def NC_EBADTYPE : Int := -45
def NC_ENOTVAR : Int := -49
def NC_EMAXNAME : Int := -53
def NC_ECHAR : Int := -56
def NC_EBADNAME : Int := -59
def NC_ERANGE : Int := -60
def NC_ENOMEM : Int := -61
def NC_ESTRICTNC3 : Int := -88
def NC_EHDFERR : Int := -101
def NC_EATTMETA : Int := -116
def NC_ELATEFILL : Int := -122
def NC_EINTERNAL : Int := -131

/-! ## The atomic external type tags (nc_type values 0..12) -/

inductive NcType where
  | tnat      -- NC_NAT, the "no type" sentinel, id 0
  | tbyte     -- NC_BYTE, id 1
  | tchar     -- NC_CHAR, id 2
  | tshort    -- NC_SHORT, id 3
  | tint      -- NC_INT, id 4
  | tfloat    -- NC_FLOAT, id 5
  | tdouble   -- NC_DOUBLE, id 6
  | tubyte    -- NC_UBYTE, id 7
  | tushort   -- NC_USHORT, id 8
  | tuint     -- NC_UINT, id 9
  | tint64    -- NC_INT64, id 10
  | tuint64   -- NC_UINT64, id 11
  | tstring   -- NC_STRING, id 12
deriving DecidableEq, Repr

/-- The numeric value of the nc_type enum tag (used by the
`file_type > NC_DOUBLE` strict-mode test in NC4_put_att). -/
def NcType.code : NcType → Nat
  | .tnat => 0 | .tbyte => 1 | .tchar => 2 | .tshort => 3 | .tint => 4
  | .tfloat => 5 | .tdouble => 6 | .tubyte => 7 | .tushort => 8
  | .tuint => 9 | .tint64 => 10 | .tuint64 => 11 | .tstring => 12

/-- Modelled from the spec: the type oracle (nc4_get_typelen_mem /
nc4typelen are not under src/).  Returns the in-memory byte size of a
type, failing on the NC_NAT sentinel. -/
def typelen : NcType → Option Nat
  | .tnat => none
  | .tbyte => some 1 | .tchar => some 1 | .tubyte => some 1
  | .tshort => some 2 | .tushort => some 2
  | .tint => some 4 | .tuint => some 4 | .tfloat => some 4
  | .tdouble => some 8 | .tint64 => some 8 | .tuint64 => some 8
  | .tstring => some 8

/-- Representable range of the integer-valued types (NC_CHAR is treated
like NC_UBYTE by the conversion code, per the comment in nc4_get_att). -/
def intRange : NcType → Option (Int × Int)
  | .tbyte => some (-128, 127)
  | .tubyte => some (0, 255)
  | .tchar => some (0, 255)
  | .tshort => some (-32768, 32767)
  | .tushort => some (0, 65535)
  | .tint => some (-2147483648, 2147483647)
  | .tuint => some (0, 4294967295)
  | .tint64 => some (-9223372036854775808, 9223372036854775807)
  | .tuint64 => some (0, 18446744073709551615)
  | _ => none

/-- Whether the conversion bridge accepts the type (numeric or character
classes; NC_NAT and NC_STRING have no numeric conversion). -/
def convertible : NcType → Bool
  | .tnat => false
  | .tstring => false
  | _ => true

/-- C integer-cast semantics: wrap the value into [lo, hi]. -/
def wrapTo (lo hi x : Int) : Int := (x - lo) % (hi - lo + 1) + lo

/-- Convert one element to the destination type, reporting whether the
value was out of range (the stored result is the C-cast wrapped value). -/
def convertElem (dst : NcType) (x : Int) : Int × Bool :=
  match intRange dst with
  | none => (x, false)          -- float/double destinations: no clipping in this model
  | some (lo, hi) => if lo ≤ x ∧ x ≤ hi then (x, false) else (wrapTo lo hi x, true)

/-- Modelled from the spec: the TypeConversionBridge (nc4_convert_type is
not under src/).  Element-wise conversion of an integer-valued payload
with range detection; non-convertible source or destination types fail
with NC_EBADTYPE. -/
def convertData (src dst : NcType) (xs : List Int) : Except Int (List Int × Bool) :=
  if convertible src ∧ convertible dst then
    .ok (xs.map (fun x => (convertElem dst x).1), xs.any (fun x => (convertElem dst x).2))
  else .error NC_EBADTYPE

/-! ## The NCindex listmap with its hash table (src/unnamed/part_000,
NCIUSEHASH branch).  Objects are represented by their name; the hash
table is modelled from the spec (nchashmap.c is not under src/) as the
list of its Active entries, each holding the key and the uintptr data. -/

structure Hentry where
  key : String
  data : Nat
deriving DecidableEq, Repr

structure NCindexH where
  list : List String
  map : List Hentry
deriving DecidableEq, Repr

/-- ncindexnew: fresh empty index. -/
def ncindexnewH : NCindexH := ⟨[], []⟩

/-- Modelled from the spec: NC_hashmapget (nchashmap.c is not under
src/) — look up the Active entry for the key. -/
def NC_hashmapget (m : List Hentry) (key : String) : Option Nat :=
  (m.find? (fun e => e.key = key)).map (fun e => e.data)

/-- Modelled from the spec: nclistget (nclist.c is not under src/) —
DynamicVector get, returning the reference or absent. -/
def nclistget (l : List String) (i : Nat) : Option String := l.get? i

/-- ncindexadd, exactly as in the source: push the object onto the
vector FIRST, then insert (name ↦ nclistlength-after-the-push) into the
hash map (src lines 308-321: `index = (uintptr_t)nclistlength(...)` is
evaluated after `nclistpush`). -/
def ncindexaddH (x : NCindexH) (name : String) : NCindexH :=
  let l' := x.list ++ [name]
  ⟨l', x.map ++ [⟨name, l'.length⟩]⟩

/-- ncindexlookup, NCIUSEHASH branch: hash the name to a vector
position, then read the vector at that position. -/
def ncindexlookupH (x : NCindexH) (name : String) : Option String :=
  match NC_hashmapget x.map name with
  | none => none
  | some i => nclistget x.list i

/-- Error count of ncindexverify's map→vector direction: every Active
entry must index a vector slot whose name equals the entry's key. -/
def verifyMapErrs (x : NCindexH) : Nat :=
  (x.map.filter (fun e =>
    match nclistget x.list e.data with
    | none => true
    | some nm => nm ≠ e.key)).length

/-- Error count of ncindexverify's vector→map direction: every vector
slot must have an entry with its name (matching is by key only), each
extra entry match past the first is an error, and entries never matched
by any slot are errors. -/
def verifyVecErrs (x : NCindexH) : Nat :=
  if x.list.length = 0 ∨ x.map.length = 0 then 0
  else
    ((List.range x.list.length).filter (fun i =>
      ¬ x.map.any (fun e => e.key = x.list.getD i ""))).length
    + (x.map.map (fun e =>
        ((List.range x.list.length).filter
          (fun i => x.list.getD i "" = e.key)).length - 1)).sum
    + (x.map.filter (fun e =>
        ((List.range x.list.length).filter
          (fun i => x.list.getD i "" = e.key)).length = 0)).length

/-- ncindexverify: returns 1 when no errors are found, 0 otherwise. -/
def ncindexverifyH (x : NCindexH) : Nat :=
  if verifyMapErrs x + verifyVecErrs x > 0 then 0 else 1

/-! ## The attribute store (src/libsrc4/nc4attr.c)

Attribute records model NC_ATT_INFO_T.  Only the raw numeric payload
(att->data) is carried; the string/vlen payload pointers (att->stdata,
att->vldata) of records are not distinguished — no claim stores a
string or vlen payload.  The per-container attribute list is the
NCindex; nc4attr.c resolves names through ncindexlookup, whose
linear-search branch (part_000 lines 271-275) is the one modelled here
for the attribute claims. -/

structure AttRec where
  name : String
  id : Nat
  typeid : NcType
  len : Nat
  data : Option (List Int)
  dirty : Bool
  created : Bool
deriving DecidableEq, Repr

/-- Placeholder record used to totalize vector reads whose index is
known to be in range. -/
def defaultAtt : AttRec := ⟨"", 0, .tnat, 0, none, false, false⟩

/-- The pieces of NC_HDF5_FILE_INFO_T / NC4_fileinfo the attribute code
reads: the NC_CLASSIC_MODEL cmode bit, the NC_INDEF flag, the no_write
flag, and the provenance state consumed by nc4_get_att_special. -/
structure H5 where
  classic : Bool
  indef : Bool
  noWrite : Bool
  propVersion : Nat
  provenance : String
  superblockVersion : Int
  isNetcdf4 : Int
deriving DecidableEq, Repr

/-- ncindexlookup over an attribute list (linear-search branch of
part_000 lines 271-275: first object whose name compares equal). -/
def ncindexlookup (l : List AttRec) (name : String) : Option AttRec :=
  match l with
  | [] => none
  | a :: t => if a.name = name then some a else ncindexlookup t name

/-- Vector position of the attribute found by ncindexlookup. -/
def ncindexpos (l : List AttRec) (name : String) : Option Nat :=
  match l with
  | [] => none
  | a :: t => if a.name = name then some 0 else (ncindexpos t name).map (· + 1)

/-- The three globally reserved virtual attribute names.  Modelled from
the spec: the NC_reservedatt table and NC_findreserved are not under
src/; the spec fixes the set to the provenance string, the is-netcdf4
flag and the superblock-version flag, all carrying NAMEONLYFLAG. -/
def NCPROPS : String := "_NCProperties"
def ISNETCDF4ATT : String := "_IsNetcdf4"
def SUPERBLOCKATT : String := "_SuperblockVersion"

def reservedNameOnly (s : String) : Bool :=
  s = NCPROPS ∨ s = ISNETCDF4ATT ∨ s = SUPERBLOCKATT

/-- Attribute payloads handed back by a get: numeric elements or the
synthesized provenance string. -/
inductive Payload where
  | ints (xs : List Int)
  | str (s : String)
deriving DecidableEq, Repr

/-- Result of nc4_get_att: the status plus whichever of the output
pointers (xtype, lenp, attnump, data) were written through. -/
structure GetResult where
  status : Int
  xtype : Option NcType
  len : Option Nat
  attnum : Option Nat
  data : Option Payload
deriving DecidableEq, Repr

/-- The integer switch of nc4_get_att_special (lines 79-90): the value
is stored through the data pointer only for the eight integer memory
types; every other requested type falls into the default and returns
NC_ERANGE. -/
def specialIntSwitch (mt : NcType) (iv : Int) : Option Int :=
  match mt with
  | .tbyte => some (wrapTo (-128) 127 iv)
  | .tshort => some (wrapTo (-32768) 32767 iv)
  | .tint => some (wrapTo (-2147483648) 2147483647 iv)
  | .tubyte => some (wrapTo 0 255 iv)
  | .tushort => some (wrapTo 0 65535 iv)
  | .tuint => some (wrapTo 0 4294967295 iv)
  | .tint64 => some (wrapTo (-9223372036854775808) 9223372036854775807 iv)
  | .tuint64 => some (wrapTo 0 18446744073709551615 iv)
  | _ => none

/-- nc4_get_att_special (nc4attr.c lines 43-93).  An attnum query fails
outright with NC_EATTMETA; the provenance string requires (after the
native-sentinel substitution) the NC_CHAR memory type; the two flag
attributes synthesize an integer from file state. -/
def nc4_get_att_special (h5 : H5) (name : String) (memType : NcType)
    (wantType wantLen wantAttnum wantData : Bool) : GetResult :=
  if wantAttnum then ⟨NC_EATTMETA, none, none, none, none⟩
  else if name = NCPROPS then
    if h5.propVersion = 0 then ⟨NC_ENOTATT, none, none, none, none⟩
    else
      let mt := if memType = .tnat then .tchar else memType
      if mt ≠ NcType.tchar then ⟨NC_ECHAR, none, none, none, none⟩
      else
        ⟨NC_NOERR, if wantType then some .tchar else none,
          if wantLen then some h5.provenance.length else none, none,
          if wantData then some (.str h5.provenance) else none⟩
  else if name = ISNETCDF4ATT ∨ name = SUPERBLOCKATT then
    let iv : Int := if name = SUPERBLOCKATT then h5.superblockVersion else h5.isNetcdf4
    let xo := if wantType then some NcType.tint else none
    let lo := if wantLen then some 1 else none
    let mt := if memType = .tnat then .tint else memType
    if wantData then
      match specialIntSwitch mt iv with
      | some v => ⟨NC_NOERR, xo, lo, none, some (.ints [v])⟩
      | none => ⟨NC_ERANGE, xo, lo, none, none⟩
    else ⟨NC_NOERR, xo, lo, none, none⟩
  else ⟨NC_NOERR, none, none, none, none⟩

/-- The NC_ECHAR clash test of nc4_get_att lines 176-177: the stored
type is NC_CHAR and the requested one is not, or vice versa. -/
def echarClash (a m : NcType) : Bool :=
  (a = .tchar ∧ m ≠ .tchar) ∨ (a ≠ .tchar ∧ m = .tchar)

/-- nc4_get_att from the point where the attribute record has been
resolved (nc4attr.c lines 166-279).  `wantData = false` models a NULL
data pointer.  Output pointers are written in source order, so a BAIL
after line 187 keeps the already-written xtype/len/attnum outputs,
while the NC_ECHAR bail (line 178) happens before any are written. -/
def nc4_get_att_found (classic : Bool) (att : AttRec) (memType0 : NcType)
    (wantType wantLen wantAttnum wantData : Bool) : GetResult :=
  -- NC_NAT means: adopt the record's stored type (lines 168-169)
  let memType := if memType0 = .tnat then att.typeid else memType0
  if wantData ∧ att.len ≠ 0 ∧ echarClash att.typeid memType then
    ⟨NC_ECHAR, none, none, none, none⟩
  else
    let xo := if wantType then some att.typeid else none
    let lo := if wantLen then some att.len else none
    let ao := if wantAttnum then some att.id else none
    if att.len = 0 then ⟨NC_NOERR, xo, lo, ao, none⟩
    else
      match typelen memType with
      | none => ⟨NC_EBADTYPE, xo, lo, ao, none⟩
      | some _ =>
        if wantData ∧ att.len ≠ 0 ∧ memType ≠ att.typeid ∧ memType ≠ .tnat ∧
            ¬(memType = .tchar ∧ (att.typeid = .tubyte ∨ att.typeid = .tbyte)) then
          match convertData att.typeid memType (att.data.getD []) with
          | .error e => ⟨e, xo, lo, ao, none⟩
          | .ok (buf, rerr) =>
            -- strict netcdf-3 rules: ignore erange between UBYTE and
            -- BYTE (lines 215-219)
            let rerr := if classic ∧ (att.typeid = .tubyte ∨ att.typeid = .tbyte) ∧
                (memType = .tubyte ∨ memType = .tbyte) then false else rerr
            ⟨if rerr then NC_ERANGE else NC_NOERR, xo, lo, ao, some (.ints buf)⟩
        else
          ⟨NC_NOERR, xo, lo, ao,
            if wantData then att.data.map .ints else none⟩

/-- nc4_get_att entry (lines 113-164): the reserved-name intercept runs
before the ListIndex lookup when the id is the file's own and varid is
NC_GLOBAL; otherwise the attribute is resolved by name.  Name
resolution (nc4_find_grp_att is not under src/) is modelled from the
spec as the ListIndex lookup, NC_ENOTATT when absent. -/
def nc4_get_att_model (h5 : H5) (isRootGlobal : Bool) (attlist : List AttRec)
    (name : String) (memType : NcType)
    (wantType wantLen wantAttnum wantData : Bool) : GetResult :=
  if isRootGlobal ∧ reservedNameOnly name then
    nc4_get_att_special h5 name memType wantType wantLen wantAttnum wantData
  else
    match ncindexlookup attlist name with
    | none => ⟨NC_ENOTATT, none, none, none, none⟩
    | some att => nc4_get_att_found h5.classic att memType wantType wantLen wantAttnum wantData

/-- NC4_inq_att (lines 296-302): metadata-only get with NC_NAT memory
type and a NULL data pointer. -/
def NC4_inq_att_model (h5 : H5) (isRootGlobal : Bool) (attlist : List AttRec)
    (name : String) : GetResult :=
  nc4_get_att_model h5 isRootGlobal attlist name .tnat true true false false

/-- NC4_inq_attid (lines 315-320): attribute-number query, NULL data. -/
def NC4_inq_attid_model (h5 : H5) (isRootGlobal : Bool) (attlist : List AttRec)
    (name : String) : GetResult :=
  nc4_get_att_model h5 isRootGlobal attlist name .tnat false false true false

/-- Result of a mutating attribute operation: the status, the attribute
list it leaves behind, and the (possibly redef-updated) NC_INDEF flag. -/
inductive MutResult where
  | ok (attlist : List AttRec) (indef : Bool)
  | err (code : Int) (attlist : List AttRec) (indef : Bool)
deriving DecidableEq, Repr

/-- NC4_del_att (nc4attr.c lines 509-589).  Outside define mode a
classic-model file fails NC_ENOTINDEFINE; otherwise NC4_redef is
entered (the definition-mode collaborator is modelled from the spec as
succeeding).  nc4_att_list_del is not under src/ and is modelled from
the spec as removing the record from the vector (compacting); the
renumber loop and ncindexrebuild follow the source.  A created
(persisted) attribute hits `assert(locid)` with locid still 0 — with
NDEBUG, H5Adelete(0, ...) fails and the code bails NC_EATTMETA. -/
def NC4_del_att_model (h5 : H5) (attlist : List AttRec) (name : String) : MutResult :=
  if h5.noWrite then .err NC_EPERM attlist h5.indef
  else if ¬h5.indef ∧ h5.classic then .err NC_ENOTINDEFINE attlist h5.indef
  else
    let indef := true  -- already in define mode, or NC4_redef succeeded
    match ncindexpos attlist name with
    | none => .err NC_ENOTATT attlist indef
    | some p =>
      let att := (attlist.get? p).getD defaultAtt
      if att.created then .err NC_EATTMETA attlist indef
      else
        let k := att.id
        let l1 := attlist.eraseIdx p
        let l2 := l1.map (fun a => if k < a.id then { a with id := a.id - 1 } else a)
        .ok l2 indef

/-- NC4_rename_att (nc4attr.c lines 400-494).  NC_MAX_NAME is 256.  The
new-name-in-use check precedes the old-name lookup; the strict-legacy
length rule compares the new name against the stored name; on success
the record keeps its id, gets the new name, is marked dirty, and (if
previously persisted) the backend copy is deleted (H5Adelete modelled
as succeeding) with created reset. -/
def NC4_rename_att_model (h5 : H5) (attlist : List AttRec)
    (name newname : String) : MutResult :=
  if newname.length > 256 then .err NC_EMAXNAME attlist h5.indef
  else if h5.noWrite then .err NC_EPERM attlist h5.indef
  else if (ncindexlookup attlist newname).isSome then .err NC_ENAMEINUSE attlist h5.indef
  else
    match ncindexpos attlist name with
    | none => .err NC_ENOTATT attlist h5.indef
    | some p =>
      let att := (attlist.get? p).getD defaultAtt
      if ¬h5.indef ∧ newname.length > att.name.length ∧ h5.classic then
        .err NC_ENOTINDEFINE attlist h5.indef
      else
        let att' := { att with name := newname, dirty := true, created := false }
        .ok (attlist.set p att') h5.indef

/-- X_INT_MAX, the maximum representable attribute length. -/
def X_INT_MAX : Nat := 2147483647

/-- nc4typelen (declared extern in nc4attr.c, definition not under
src/): modelled from the spec's type oracle, byte size of a type. -/
def nc4typelen (t : NcType) : Nat := (typelen t).getD 0

/-- Outcome of NC4_put_att.  `crash` marks the dereference of the local
`var` pointer, which NC4_put_att declares NULL (line 618) and never
assigns before the _FillValue branch reads var->type_info (line 766). -/
inductive PutResult where
  | ok (attlist : List AttRec) (indef : Bool)
  | err (code : Int) (attlist : List AttRec) (indef : Bool)
  | crash (attlist : List AttRec)
deriving DecidableEq, Repr

/-- NC4_put_att (nc4attr.c lines 611-938).

* `isRootGlobal` models `nc->ext_ncid == ncid && varid == NC_GLOBAL &&
  grp->parent == NULL` (the reserved-name guard context);
* `isGlobal` models `varid == NC_GLOBAL`;
* `oomAtData` is the allocation oracle for the payload malloc at line
  907 (`att->data = malloc(...)`), the failure path the rollback claim
  is about: the old payload has already been freed and the length/type
  already overwritten when it bails NC_ENOMEM.

nc4_att_list_add is not under src/ and is modelled from the spec:
append a fresh record whose id is the list length at append time.
Name validation (nc4_check_name) is modelled as its length contract.
The string/vlen payload branches store the incoming payload in the
single payload field of this model (no claim exercises them).  The
conversion at line 916 goes mem_type → file_type through the bridge. -/
def NC4_put_att_model (h5 : H5) (isRootGlobal isGlobal : Bool)
    (attlist : List AttRec) (name : String) (file_type : NcType) (len : Nat)
    (data : Option (List Int)) (mem_type : NcType) (oomAtData : Bool) : PutResult :=
  if len > X_INT_MAX then .err NC_EINVAL attlist h5.indef
  else if name.length > 256 then .err NC_EBADNAME attlist h5.indef
  else if len ≠ 0 ∧ data = none then .err NC_EINVAL attlist h5.indef
  else if h5.noWrite then .err NC_EPERM attlist h5.indef
  else if isRootGlobal ∧ reservedNameOnly name then .err NC_ENAMEINUSE attlist h5.indef
  else
    let existing := ncindexpos attlist name
    -- define-mode gate (lines 678-702); NC4_redef modelled as succeeding
    let gate : Option Int :=
      match existing with
      | none =>
        if ¬h5.indef ∧ h5.classic then some NC_EINDEFINE else none
      | some p =>
        let att := (attlist.get? p).getD defaultAtt
        if ¬h5.indef ∧ len * nc4typelen file_type > att.len * nc4typelen att.typeid ∧
            h5.classic then some NC_EINDEFINE else none
    match gate with
    | some e => .err e attlist h5.indef
    | none =>
      let indef := if h5.indef then true
        else match existing with
          | none => true  -- NC4_redef entered
          | some p =>
            let att := (attlist.get? p).getD defaultAtt
            if len * nc4typelen file_type > att.len * nc4typelen att.typeid then true
            else h5.indef
      if file_type = .tnat ∨ mem_type = .tnat then .err NC_EBADTYPE attlist indef
      else
        match typelen file_type with
        | none => .err NC_EBADTYPE attlist indef
        | some _ =>
          if file_type ≠ mem_type ∧
              (file_type = .tchar ∨ mem_type = .tchar ∨
               file_type = .tstring ∨ mem_type = .tstring) then
            .err NC_ECHAR attlist indef
          else if h5.classic ∧ file_type.code > NcType.tdouble.code then
            .err NC_ESTRICTNC3 attlist indef
          else
            -- append on first creation (nc4_att_list_add, spec-modelled)
            let p := match existing with
              | some p => p
              | none => attlist.length
            let l1 := match existing with
              | some _ => attlist
              | none => attlist ++ [(⟨name, attlist.length, .tnat, 0, none, false, false⟩ : AttRec)]
            let att0 := (l1.get? p).getD defaultAtt
            -- fill in the metadata (lines 735-755): dirty, type tag,
            -- stdata/vldata released, new length
            let att1 := { att0 with dirty := true, typeid := file_type, len := len }
            let l2 := l1.set p att1
            if name = "_FillValue" ∧ ¬isGlobal then
              -- var was never assigned: var->type_info dereferences NULL
              .crash l2
            else if len ≠ 0 then
              if file_type = .tstring then
                -- NC_STRING class branch: per-element strdup into stdata
                .ok (l2.set p { att1 with data := data, created := false }) indef
              else
                -- numeric path: free old payload, then malloc the new one
                if oomAtData then
                  .err NC_ENOMEM (l2.set p { att1 with data := none }) indef
                else
                  match convertData mem_type file_type (data.getD []) with
                  | .error e => .err e (l2.set p { att1 with data := some [] }) indef
                  | .ok (buf, rerr) =>
                    let l3 := l2.set p { att1 with data := some buf, created := false }
                    if rerr then .err NC_ERANGE l3 indef else .ok l3 indef
            else
              .ok (l2.set p { att1 with created := false }) indef

/-! ## Helper lemmas -/

theorem ncindexpos_spec {l : List AttRec} {nm : String} {p : Nat}
    (h : ncindexpos l nm = some p) :
    p < l.length ∧ ∃ a, l.get? p = some a ∧ a.name = nm := by
  induction l generalizing p with
  | nil => simp [ncindexpos] at h
  | cons a t ih =>
    by_cases hn : a.name = nm
    · rw [ncindexpos, if_pos hn] at h
      cases h
      exact ⟨Nat.succ_pos _, a, rfl, hn⟩
    · rw [ncindexpos, if_neg hn, Option.map_eq_some'] at h
      obtain ⟨q, hq, rfl⟩ := h
      obtain ⟨h1, b, h2, h3⟩ := ih hq
      exact ⟨Nat.succ_lt_succ h1, b, h2, h3⟩

theorem ncindexlookup_eq_none_iff (l : List AttRec) (nm : String) :
    ncindexlookup l nm = none ↔ ∀ b ∈ l, b.name ≠ nm := by
  induction l with
  | nil => simp [ncindexlookup]
  | cons a t ih =>
    by_cases hn : a.name = nm
    · rw [ncindexlookup, if_pos hn]
      simp only [List.mem_cons]
      constructor
      · intro h; cases h
      · intro h; exact absurd hn (h a (Or.inl rfl))
    · rw [ncindexlookup, if_neg hn, ih]
      simp only [List.mem_cons]
      constructor
      · intro h b hb
        rcases hb with rfl | hb
        · exact hn
        · exact h b hb
      · intro h b hb; exact h b (Or.inr hb)

theorem ncindexlookup_set_new {l : List AttRec} {nn : String} {p : Nat} {att' : AttRec}
    (hnone : ∀ b ∈ l, b.name ≠ nn) (hp : p < l.length) (ha : att'.name = nn) :
    ncindexlookup (l.set p att') nn = some att' := by
  induction l generalizing p with
  | nil => exact absurd hp (by simp)
  | cons a t ih =>
    cases p with
    | zero => simp [ncindexlookup, ha]
    | succ q =>
      rw [List.set_cons_succ, ncindexlookup,
        if_neg (hnone a (List.mem_cons_self a t))]
      exact ih (fun b hb => hnone b (List.mem_cons_of_mem a hb)) (by simpa using hp)

theorem ncindexlookup_set_old {l : List AttRec} {nm : String} {p : Nat} {att' : AttRec}
    (h1 : att'.name ≠ nm)
    (h2 : ∀ i, i ≠ p → ∀ b, l.get? i = some b → b.name ≠ nm) :
    ncindexlookup (l.set p att') nm = none := by
  induction l generalizing p with
  | nil => simp [ncindexlookup, List.set]
  | cons a t ih =>
    cases p with
    | zero =>
      rw [List.set_cons_zero, ncindexlookup, if_neg h1,
        ncindexlookup_eq_none_iff]
      intro b hb
      obtain ⟨i, hi⟩ := List.mem_iff_get?.mp hb
      exact h2 (i + 1) (Nat.succ_ne_zero i) b hi
    | succ q =>
      rw [List.set_cons_succ, ncindexlookup,
        if_neg (h2 0 (Nat.zero_ne_add_one q) a rfl)]
      exact ih (fun i hi b hb =>
        h2 (i + 1) (fun hc => hi (Nat.succ_injective hc)) b hb)

theorem eraseIdx_get?_of_lt (l : List AttRec) (p i : Nat) (h : i < p) :
    (l.eraseIdx p).get? i = l.get? i := by
  induction l generalizing p i with
  | nil => simp [List.eraseIdx]
  | cons a t ih =>
    cases p with
    | zero => exact absurd h (Nat.not_lt_zero i)
    | succ q =>
      cases i with
      | zero => simp [List.eraseIdx]
      | succ j =>
        rw [List.eraseIdx_cons_succ, List.get?_cons_succ, List.get?_cons_succ]
        exact ih q j (Nat.lt_of_succ_lt_succ h)

theorem eraseIdx_get?_of_ge (l : List AttRec) (p i : Nat) (hp : p < l.length)
    (h : p ≤ i) : (l.eraseIdx p).get? i = l.get? (i + 1) := by
  induction l generalizing p i with
  | nil => exact absurd hp (by simp)
  | cons a t ih =>
    cases p with
    | zero => simp [List.eraseIdx]
    | succ q =>
      cases i with
      | zero => exact absurd h (by omega)
      | succ j =>
        rw [List.eraseIdx_cons_succ, List.get?_cons_succ, List.get?_cons_succ]
        exact ih q j (by simpa using hp) (Nat.le_of_succ_le_succ h)

theorem eraseIdx_length (l : List AttRec) (p : Nat) (hp : p < l.length) :
    (l.eraseIdx p).length = l.length - 1 := by
  induction l generalizing p with
  | nil => simp at hp
  | cons a t ih =>
    cases p with
    | zero => simp [List.eraseIdx]
    | succ q =>
      have hq : q < t.length := by simpa using hp
      rw [List.eraseIdx_cons_succ, List.length_cons, ih q hq, List.length_cons]
      omega

theorem typelen_isSome {t : NcType} (h : t ≠ NcType.tnat) :
    ∃ n, typelen t = some n := by
  cases t <;> simp [typelen] at h ⊢

theorem wrapTo_eq_self {lo hi x : Int} (h1 : lo ≤ x) (h2 : x ≤ hi) :
    wrapTo lo hi x = x := by
  unfold wrapTo
  have hm : (x - lo) % (hi - lo + 1) = x - lo :=
    Int.emod_eq_of_lt (by omega) (by omega)
  omega

/-! ## The claims -/

/-- C1: the claim says that after every add/rename/remove the ListIndex
is bidirectionally consistent, and in particular that immediately after
ncindexadd appends an object the hash entry for its name resolves to
the position at which it was appended.  The code computes the hash
index as `nclistlength` AFTER `nclistpush`, so the very first add into
a fresh index stores data 1 for the object appended at position 0:
ncindexlookup through the hash returns nothing for the just-added name
and the code's own ncindexverify reports the index as corrupt. -/
theorem C1_ncindexadd_off_by_one :
    (ncindexaddH ncindexnewH "a").list = ["a"] ∧
    (ncindexaddH ncindexnewH "a").map = [⟨"a", 1⟩] ∧
    NC_hashmapget (ncindexaddH ncindexnewH "a").map "a" = some 1 ∧
    ncindexlookupH (ncindexaddH ncindexnewH "a") "a" = none ∧
    ncindexverifyH (ncindexaddH ncindexnewH "a") = 0 := by decide

/-- C4 counterexample: the claim says a strict-legacy (classic-model)
container outside definition mode transparently enters definition mode
on delete; the code instead fails the delete with NC_ENOTINDEFINE
(nc4attr.c lines 539-542).  Concrete state: classic model, not in
define mode, writable, one live attribute "a". -/
theorem C4_counterexample :
    NC4_del_att_model ⟨true, false, false, 1, "v", 2, 1⟩
        [⟨"a", 0, .tint, 1, some [1], false, false⟩] "a"
      = .err NC_ENOTINDEFINE [⟨"a", 0, .tint, 1, some [1], false, false⟩] false ∧
    NC_ENOTINDEFINE ≠ NC_NOERR := by decide

/-- C4 amended: outside definition mode it is the NON-classic container
whose delete transparently enters definition mode and removes the
attribute; a classic-model container's delete fails NC_ENOTINDEFINE. -/
theorem C4_define_mode_gate (h5 : H5) (l : List AttRec) (nm : String)
    (hnw : h5.noWrite = false) (hnd : h5.indef = false) :
    (h5.classic = true →
      NC4_del_att_model h5 l nm = .err NC_ENOTINDEFINE l false) ∧
    (h5.classic = false → ∀ p a, ncindexpos l nm = some p →
      l.get? p = some a → a.created = false →
      ∃ l', NC4_del_att_model h5 l nm = .ok l' true) := by
  constructor
  · intro hc
    unfold NC4_del_att_model
    simp [hnw, hnd, hc]
  · intro hc p a hpos hget hcr
    have hget' : l[p]? = some a := by rw [← List.get?_eq_getElem?]; exact hget
    refine ⟨(l.eraseIdx p).map
      (fun b => if a.id < b.id then { b with id := b.id - 1 } else b), ?_⟩
    unfold NC4_del_att_model
    simp [hnw, hnd, hc, hpos, hget', hcr]

/-- C4 witness: a non-classic file outside define mode deletes "a"
successfully; a classic one fails NC_ENOTINDEFINE. -/
theorem C4_define_mode_gate_witness :
    (NC4_del_att_model ⟨true, false, false, 1, "v", 2, 1⟩
        [⟨"a", 0, .tint, 1, some [1], false, false⟩] "a"
      = .err NC_ENOTINDEFINE [⟨"a", 0, .tint, 1, some [1], false, false⟩] false) ∧
    (∃ l', NC4_del_att_model ⟨false, false, false, 1, "v", 2, 1⟩
        [⟨"a", 0, .tint, 1, some [1], false, false⟩] "a" = .ok l' true) := by
  constructor
  · exact (C4_define_mode_gate ⟨true, false, false, 1, "v", 2, 1⟩
      [⟨"a", 0, .tint, 1, some [1], false, false⟩] "a" rfl rfl).1 rfl
  · exact (C4_define_mode_gate ⟨false, false, false, 1, "v", 2, 1⟩
      [⟨"a", 0, .tint, 1, some [1], false, false⟩] "a" rfl rfl).2 rfl 0
      ⟨"a", 0, .tint, 1, some [1], false, false⟩ (by decide) (by decide) rfl

/-- C5: the claim describes the fill-value checks (length 1, matching
type, not-yet-written) and the cached-fill-value update.  NC4_put_att
declares `NC_VAR_INFO_T *var = NULL` (line 618) and never assigns it,
yet the _FillValue branch dereferences `var->type_info` (line 766), so
every put of the designated fill-value attribute on a variable
dereferences a null pointer before any of the claimed checks can
happen.  The model evaluates a well-formed fill-value put (length 1,
matching types, writable, in define mode) to the crash outcome. -/
theorem C5_fillvalue_put_crashes :
    NC4_put_att_model ⟨false, true, false, 1, "v", 2, 1⟩ false false []
        "_FillValue" .tint 1 (some [7]) .tint false
      = .crash [⟨"_FillValue", 0, .tint, 1, none, true, false⟩] := by decide

/-- C9: the claim (spec §7) requires that a put returning an error
other than a RangeWarning leave the attribute store as it was.  When
the payload malloc at line 907 fails, the old payload has already been
freed, and the type tag and length were already overwritten (lines
736, 755): the put returns NC_ENOMEM with a half-updated record (type
tag NC_SHORT instead of NC_INT, length 2 instead of 1, payload gone,
dirty set) still in the list. -/
theorem C9_error_leaves_half_updated_record :
    NC4_put_att_model ⟨false, true, false, 1, "v", 2, 1⟩ false true
        [⟨"a", 0, .tint, 1, some [5], false, true⟩] "a" .tshort 2
        (some [1, 2]) .tshort true
      = .err NC_ENOMEM [⟨"a", 0, .tshort, 2, none, true, true⟩] true ∧
    ([⟨"a", 0, .tshort, 2, none, true, true⟩] : List AttRec)
      ≠ [⟨"a", 0, .tint, 1, some [5], false, true⟩] ∧
    NC_ENOMEM ≠ NC_ERANGE := by decide

/-- C6 counterexample: the claim says every get of an existing
attribute fails NC_ECHAR when exactly one of the stored and requested
types is of the character/string class.  The code's check (lines
175-178) tests only NC_CHAR and only when a data pointer was passed
and the stored length is nonzero.  Two concrete gets that the claim
covers but that do not return NC_ECHAR: (a) a zero-length NC_CHAR
attribute read as NC_INT with data requested returns NC_NOERR; (b) an
NC_STRING attribute read as NC_INT with data requested reaches the
conversion bridge and fails NC_EBADTYPE, not NC_ECHAR. -/
theorem C6_counterexample :
    (nc4_get_att_found false ⟨"a", 0, .tchar, 0, none, false, false⟩
        .tint true true false true).status = NC_NOERR ∧
    (nc4_get_att_found false ⟨"s", 0, .tstring, 1, none, false, false⟩
        .tint true true false true).status = NC_EBADTYPE ∧
    NC_NOERR ≠ NC_ECHAR ∧ NC_EBADTYPE ≠ NC_ECHAR := by decide

/-- C6 amended: for every get of an existing attribute that requests
data and whose stored length is nonzero, if exactly one of the stored
type and the (native-sentinel-substituted) requested type is NC_CHAR
and the other is not, the get fails NC_ECHAR; the check covers only
NC_CHAR, not NC_STRING, and is skipped for metadata-only or
zero-length reads. -/
theorem C6_char_type_mismatch (classic wt wl wa : Bool) (att : AttRec)
    (mt0 : NcType) (hlen : att.len ≠ 0)
    (hclash : echarClash att.typeid (if mt0 = .tnat then att.typeid else mt0) = true) :
    nc4_get_att_found classic att mt0 wt wl wa true
      = ⟨NC_ECHAR, none, none, none, none⟩ := by
  unfold nc4_get_att_found
  simp [hlen, hclash]

/-- C6 witness: an NC_CHAR attribute of length 1 read as NC_INT with
data requested fails NC_ECHAR. -/
theorem C6_char_type_mismatch_witness :
    nc4_get_att_found false ⟨"c", 0, .tchar, 1, some [65], false, false⟩
        .tint true true false true = ⟨NC_ECHAR, none, none, none, none⟩ :=
  C6_char_type_mismatch false true true false
    ⟨"c", 0, .tchar, 1, some [65], false, false⟩ .tint (by decide) (by decide)

/-- C2: a successful delete of the attribute with id k removes it from
the vector (compacting), decrements by one the id of every attribute
whose id was strictly greater than k, leaves lower ids and the
relative declaration order unchanged, and leaves ids equal to
positions again — so the object formerly at id i+1 is now reachable at
id i for every i ≥ k (e.g. from [0,1,2,3], deleting id 1 leaves
[0,1,2] with former id 2 at id 1, former id 3 at id 2).  The
hypothesis `hids` is the add-time invariant (id = position); `hcr`
restricts to attributes not yet persisted (a persisted one trips the
never-assigned locid handle, a separate defect). -/
theorem C2_delete_compacts_and_renumbers (h5 : H5) (l : List AttRec)
    (nm : String) (p : Nat)
    (hnw : h5.noWrite = false) (hdef : h5.indef = true)
    (hpos : ncindexpos l nm = some p)
    (hids : ∀ i, i < l.length → ((l.get? i).getD defaultAtt).id = i)
    (hcr : ∀ b ∈ l, b.created = false) :
    ∃ l', NC4_del_att_model h5 l nm = .ok l' true ∧
      l'.length = l.length - 1 ∧
      (∀ i, i < p → l'.get? i = l.get? i) ∧
      (∀ i, p ≤ i → i + 1 < l.length →
        ∃ b, l.get? (i + 1) = some b ∧ l'.get? i = some { b with id := i }) ∧
      (∀ i, i < l'.length → ((l'.get? i).getD defaultAtt).id = i) := by
  obtain ⟨hp, a, hget, -⟩ := ncindexpos_spec hpos
  have hget' : l[p]? = some a := by rw [← List.get?_eq_getElem?]; exact hget
  have haid : a.id = p := by
    have h := hids p hp
    rw [hget] at h
    simpa using h
  have hcra : a.created = false := hcr a (List.mem_iff_get?.mpr ⟨p, hget⟩)
  have hlow : ∀ i, i < p →
      ((l.eraseIdx p).map
        (fun b => if p < b.id then { b with id := b.id - 1 } else b)).get? i
      = l.get? i := by
    intro i hi
    rw [List.get?_map, eraseIdx_get?_of_lt l p i hi]
    cases h : l.get? i with
    | none => rfl
    | some b =>
      obtain ⟨hlt, -⟩ := List.get?_eq_some.mp h
      have hb : b.id = i := by
        have h2 := hids i hlt
        rw [h] at h2
        simpa using h2
      simp only [Option.map_some']
      rw [if_neg (by omega)]
  have hup : ∀ i, p ≤ i → i + 1 < l.length →
      ∃ b, l.get? (i + 1) = some b ∧
        ((l.eraseIdx p).map
          (fun b => if p < b.id then { b with id := b.id - 1 } else b)).get? i
        = some { b with id := i } := by
    intro i hpi hi1
    cases hb : l.get? (i + 1) with
    | none =>
      rw [List.get?_eq_none] at hb
      omega
    | some b =>
      refine ⟨b, rfl, ?_⟩
      have hbid : b.id = i + 1 := by
        have h2 := hids (i + 1) hi1
        rw [hb] at h2
        simpa using h2
      rw [List.get?_map, eraseIdx_get?_of_ge l p i hp hpi, hb]
      simp only [Option.map_some']
      rw [if_pos (by omega)]
      simp [hbid]
  refine ⟨(l.eraseIdx p).map
    (fun b => if p < b.id then { b with id := b.id - 1 } else b), ?_, ?_, hlow, hup, ?_⟩
  · unfold NC4_del_att_model
    simp [hnw, hdef, hpos, hget', hcra, haid]
  · rw [List.length_map]
    exact eraseIdx_length l p hp
  · intro i hi
    rw [List.length_map, eraseIdx_length l p hp] at hi
    by_cases hip : i < p
    · rw [hlow i hip]
      exact hids i (by omega)
    · obtain ⟨b, -, hb2⟩ := hup i (Nat.le_of_not_lt hip) (by omega)
      rw [hb2]
      rfl

/-- C2 witness: ids [0,1,2,3], delete "b" (id 1): the result keeps "a"
at id 0, moves "c" to id 1 and "d" to id 2, in order. -/
theorem C2_delete_witness :
    ∃ l', NC4_del_att_model ⟨false, true, false, 1, "v", 2, 1⟩
        [⟨"a", 0, .tint, 1, some [0], false, false⟩,
         ⟨"b", 1, .tint, 1, some [1], false, false⟩,
         ⟨"c", 2, .tint, 1, some [2], false, false⟩,
         ⟨"d", 3, .tint, 1, some [3], false, false⟩] "b" = .ok l' true ∧
      l'.length = ([⟨"a", 0, .tint, 1, some [0], false, false⟩,
         ⟨"b", 1, .tint, 1, some [1], false, false⟩,
         ⟨"c", 2, .tint, 1, some [2], false, false⟩,
         ⟨"d", 3, .tint, 1, some [3], false, false⟩] : List AttRec).length - 1 ∧
      (∀ i, i < 1 → l'.get? i
        = ([⟨"a", 0, .tint, 1, some [0], false, false⟩,
           ⟨"b", 1, .tint, 1, some [1], false, false⟩,
           ⟨"c", 2, .tint, 1, some [2], false, false⟩,
           ⟨"d", 3, .tint, 1, some [3], false, false⟩] : List AttRec).get? i) ∧
      (∀ i, 1 ≤ i → i + 1 < ([⟨"a", 0, .tint, 1, some [0], false, false⟩,
           ⟨"b", 1, .tint, 1, some [1], false, false⟩,
           ⟨"c", 2, .tint, 1, some [2], false, false⟩,
           ⟨"d", 3, .tint, 1, some [3], false, false⟩] : List AttRec).length →
        ∃ b, ([⟨"a", 0, .tint, 1, some [0], false, false⟩,
           ⟨"b", 1, .tint, 1, some [1], false, false⟩,
           ⟨"c", 2, .tint, 1, some [2], false, false⟩,
           ⟨"d", 3, .tint, 1, some [3], false, false⟩] : List AttRec).get? (i + 1) = some b ∧
          l'.get? i = some { b with id := i }) ∧
      (∀ i, i < l'.length → ((l'.get? i).getD defaultAtt).id = i) :=
  C2_delete_compacts_and_renumbers ⟨false, true, false, 1, "v", 2, 1⟩
    [⟨"a", 0, .tint, 1, some [0], false, false⟩,
     ⟨"b", 1, .tint, 1, some [1], false, false⟩,
     ⟨"c", 2, .tint, 1, some [2], false, false⟩,
     ⟨"d", 3, .tint, 1, some [3], false, false⟩] "b" 1 rfl rfl
    (by decide) (by decide) (by decide)

/-- C3: when a get of an existing attribute converts between a stored
and a requested type (both outside the character class) and an element
is out of range, the call returns NC_ERANGE alongside the best-effort
converted data — except exactly when the file is in classic
(strict-legacy) mode and both types lie in {NC_BYTE, NC_UBYTE}, in
which case the warning is suppressed and the call succeeds.  The
if-then-else in the conclusion settles both halves: the suppression
happens for the 8-bit signed/unsigned pairings and for no other type
pairing. -/
theorem C3_range_warning_and_strict_byte_exception
    (classic wt wl wa : Bool) (att : AttRec) (mt : NcType) (buf : List Int)
    (hne : mt ≠ att.typeid) (hmt : mt ≠ .tnat)
    (hac : att.typeid ≠ .tchar) (hmc : mt ≠ .tchar)
    (hlen : att.len ≠ 0)
    (hconv : convertData att.typeid mt (att.data.getD []) = .ok (buf, true)) :
    nc4_get_att_found classic att mt wt wl wa true =
      ⟨if classic ∧ (att.typeid = .tubyte ∨ att.typeid = .tbyte) ∧
          (mt = .tubyte ∨ mt = .tbyte) then NC_NOERR else NC_ERANGE,
       if wt then some att.typeid else none,
       if wl then some att.len else none,
       if wa then some att.id else none,
       some (.ints buf)⟩ := by
  obtain ⟨n, hn⟩ := typelen_isSome hmt
  have hcl : echarClash att.typeid mt = false := by
    simp [echarClash, hac, hmc]
  by_cases hsup : classic = true ∧ (att.typeid = .tubyte ∨ att.typeid = .tbyte) ∧
      (mt = .tubyte ∨ mt = .tbyte)
  · unfold nc4_get_att_found
    simp [hmt, hcl, hlen, hn, hconv, hne, hmc, hsup]
  · unfold nc4_get_att_found
    simp [hmt, hcl, hlen, hn, hconv, hne, hmc, hsup]

/-- C3 witness: classic mode, stored NC_BYTE value -1 requested as
NC_UBYTE: the element is out of range, yet the get succeeds (range
warning suppressed) with the wrapped value 255. -/
theorem C3_range_warning_witness :
    convertData .tbyte .tubyte [-1] = .ok ([255], true) ∧
    nc4_get_att_found true ⟨"a", 0, .tbyte, 1, some [-1], false, false⟩
        .tubyte true true false true
      = ⟨NC_NOERR, some .tbyte, some 1, none, some (.ints [255])⟩ :=
  ⟨by rfl, by
    have h := C3_range_warning_and_strict_byte_exception true true true false
      ⟨"a", 0, .tbyte, 1, some [-1], false, false⟩ .tubyte [255]
      (by decide) (by decide) (by decide) (by decide) (by decide) (by rfl)
    simpa using h⟩

/-- C7: for each of the three globally reserved virtual names, a
global put fails NC_ENAMEINUSE (list untouched), an attribute-id query
fails outright with NC_EATTMETA and yields no id, and a (native-typed)
get succeeds with a value synthesized from file state although the
name is absent from the attribute ListIndex. -/
theorem C7_reserved_virtual_attributes (h5 : H5) (l : List AttRec) (nm : String)
    (hres : reservedNameOnly nm = true)
    (hnw : h5.noWrite = false)
    (hver : h5.propVersion ≠ 0)
    (hsb1 : 0 ≤ h5.superblockVersion) (hsb2 : h5.superblockVersion ≤ 127)
    (hn1 : 0 ≤ h5.isNetcdf4) (hn2 : h5.isNetcdf4 ≤ 127)
    (_habs : ncindexlookup l nm = none) :
    (∀ (ft mt : NcType) (len : Nat) (xs : List Int) (oom : Bool),
      len ≤ X_INT_MAX →
      NC4_put_att_model h5 true true l nm ft len (some xs) mt oom
        = .err NC_ENAMEINUSE l h5.indef) ∧
    ((NC4_inq_attid_model h5 true l nm).status = NC_EATTMETA ∧
     (NC4_inq_attid_model h5 true l nm).attnum = none) ∧
    ((nc4_get_att_model h5 true l nm .tnat true true false true).status = NC_NOERR ∧
     (nc4_get_att_model h5 true l nm .tnat true true false true).data
       = some (if nm = NCPROPS then .str h5.provenance
           else .ints [if nm = SUPERBLOCKATT then h5.superblockVersion
                       else h5.isNetcdf4])) := by
  have hcases : nm = NCPROPS ∨ nm = ISNETCDF4ATT ∨ nm = SUPERBLOCKATT := by
    simpa [reservedNameOnly] using hres
  have hname : nm.length ≤ 256 := by
    rcases hcases with rfl | rfl | rfl <;> decide
  refine ⟨?_, ?_, ?_⟩
  · intro ft mt len xs oom hl
    unfold NC4_put_att_model
    simp [hnw, hres, Nat.not_lt.mpr hl, Nat.not_lt.mpr hname]
  · constructor <;>
    · unfold NC4_inq_attid_model nc4_get_att_model nc4_get_att_special
      rw [if_pos ⟨rfl, hres⟩]
      rfl
  · rcases hcases with rfl | rfl | rfl
    · unfold nc4_get_att_model nc4_get_att_special
      rw [if_pos ⟨rfl, (by decide : reservedNameOnly NCPROPS = true)⟩]
      simp [hver]
    · have hw : wrapTo (-2147483648) 2147483647 h5.isNetcdf4 = h5.isNetcdf4 :=
        wrapTo_eq_self (by omega) (by omega)
      unfold nc4_get_att_model nc4_get_att_special
      rw [if_pos ⟨rfl, (by decide : reservedNameOnly ISNETCDF4ATT = true)⟩]
      simp [specialIntSwitch, hw,
        (by decide : ISNETCDF4ATT ≠ NCPROPS),
        (by decide : ISNETCDF4ATT ≠ SUPERBLOCKATT)]
    · have hw : wrapTo (-2147483648) 2147483647 h5.superblockVersion
          = h5.superblockVersion := wrapTo_eq_self (by omega) (by omega)
      unfold nc4_get_att_model nc4_get_att_special
      rw [if_pos ⟨rfl, (by decide : reservedNameOnly SUPERBLOCKATT = true)⟩]
      simp [specialIntSwitch, hw,
        (by decide : SUPERBLOCKATT ≠ NCPROPS)]

/-- C7 witness: the provenance attribute on a writable file with
provenance version 1: put fails NC_ENAMEINUSE, the id query fails
NC_EATTMETA, and the get synthesizes the provenance string. -/
theorem C7_reserved_witness :
    (∀ (ft mt : NcType) (len : Nat) (xs : List Int) (oom : Bool),
      len ≤ X_INT_MAX →
      NC4_put_att_model ⟨false, true, false, 1, "version=1", 2, 1⟩ true true []
          "_NCProperties" ft len (some xs) mt oom
        = .err NC_ENAMEINUSE [] true) ∧
    ((NC4_inq_attid_model ⟨false, true, false, 1, "version=1", 2, 1⟩ true []
        "_NCProperties").status = NC_EATTMETA ∧
     (NC4_inq_attid_model ⟨false, true, false, 1, "version=1", 2, 1⟩ true []
        "_NCProperties").attnum = none) ∧
    ((nc4_get_att_model ⟨false, true, false, 1, "version=1", 2, 1⟩ true []
        "_NCProperties" .tnat true true false true).status = NC_NOERR ∧
     (nc4_get_att_model ⟨false, true, false, 1, "version=1", 2, 1⟩ true []
        "_NCProperties" .tnat true true false true).data
       = some (if "_NCProperties" = NCPROPS then .str "version=1"
           else .ints [if "_NCProperties" = SUPERBLOCKATT then 2 else 1])) :=
  C7_reserved_virtual_attributes ⟨false, true, false, 1, "version=1", 2, 1⟩ []
    "_NCProperties" (by decide) rfl (by decide) (by decide) (by decide)
    (by decide) (by decide) rfl

/-- C8: rename fails NC_ENAMEINUSE when the new name is live; fails
NC_ENOTATT when the old name is absent; in a classic-model file
outside define mode fails NC_ENOTINDEFINE exactly when the new name is
strictly longer than the old; otherwise the record keeps its id (the
result record differs from the original only in name, dirty and
created), is reachable under the new name and no longer under the old
one. -/
theorem C8_rename_att (h5 : H5) (l : List AttRec) (nm nn : String)
    (hnw : h5.noWrite = false) (hlen : nn.length ≤ 256) :
    ((ncindexlookup l nn).isSome = true →
      NC4_rename_att_model h5 l nm nn = .err NC_ENAMEINUSE l h5.indef) ∧
    (ncindexlookup l nn = none → ncindexpos l nm = none →
      NC4_rename_att_model h5 l nm nn = .err NC_ENOTATT l h5.indef) ∧
    (∀ p a, ncindexlookup l nn = none → ncindexpos l nm = some p →
      l.get? p = some a → h5.classic = true → h5.indef = false →
      (NC4_rename_att_model h5 l nm nn = .err NC_ENOTINDEFINE l h5.indef
        ↔ a.name.length < nn.length)) ∧
    (∀ p a, ncindexlookup l nn = none → ncindexpos l nm = some p →
      l.get? p = some a →
      (h5.indef = true ∨ nn.length ≤ a.name.length ∨ h5.classic = false) →
      (∀ i, i < l.length → i ≠ p → ((l.get? i).getD defaultAtt).name ≠ nm) →
      NC4_rename_att_model h5 l nm nn
        = .ok (l.set p { a with name := nn, dirty := true, created := false })
            h5.indef ∧
      ncindexlookup (l.set p { a with name := nn, dirty := true, created := false }) nn
        = some { a with name := nn, dirty := true, created := false } ∧
      ncindexlookup (l.set p { a with name := nn, dirty := true, created := false }) nm
        = none) := by
  have hlen' : ¬ nn.length > 256 := Nat.not_lt.mpr hlen
  refine ⟨?_, ?_, ?_, ?_⟩
  · intro h
    unfold NC4_rename_att_model
    simp [hlen', hnw, h]
  · intro h1 h2
    unfold NC4_rename_att_model
    simp [hlen', hnw, h1, h2]
  · intro p a h1 h2 hget hc hd
    have hget' : l[p]? = some a := by rw [← List.get?_eq_getElem?]; exact hget
    have heval : NC4_rename_att_model h5 l nm nn
        = if h5.indef = false ∧ a.name.length < nn.length ∧ h5.classic = true
          then .err NC_ENOTINDEFINE l h5.indef
          else .ok (l.set p { a with name := nn, dirty := true, created := false })
            h5.indef := by
      unfold NC4_rename_att_model
      simp [hlen', hnw, h1, h2, hget']
    rw [heval]
    by_cases hlong : a.name.length < nn.length
    · rw [if_pos ⟨hd, hlong, hc⟩]
      simp [hlong]
    · rw [if_neg (fun hco => hlong hco.2.1)]
      constructor
      · intro hco
        simp at hco
      · intro hco
        exact absurd hco hlong
  · intro p a h1 h2 hget hsafe honly
    have hp : p < l.length := (ncindexpos_spec h2).1
    have hname' : a.name = nm := by
      obtain ⟨-, a', hget2, hn⟩ := ncindexpos_spec h2
      rw [hget] at hget2
      rw [Option.some.inj hget2]
      exact hn
    have hget' : l[p]? = some a := by rw [← List.get?_eq_getElem?]; exact hget
    have hnonn : ∀ b ∈ l, b.name ≠ nn := (ncindexlookup_eq_none_iff l nn).mp h1
    have hnm_ne : nn ≠ nm := by
      intro he
      exact hnonn a (List.mem_iff_get?.mpr ⟨p, hget⟩) (by rw [hname']; exact he.symm)
    have honly' : ∀ i, i ≠ p → ∀ b, l.get? i = some b → b.name ≠ nm := by
      intro i hi b hb
      have hilt : i < l.length := by
        by_contra hge
        rw [List.get?_eq_none.mpr (Nat.le_of_not_lt hge)] at hb
        cases hb
      have hx := honly i hilt hi
      rw [hb] at hx
      simpa using hx
    have heval : NC4_rename_att_model h5 l nm nn
        = if h5.indef = false ∧ a.name.length < nn.length ∧ h5.classic = true
          then .err NC_ENOTINDEFINE l h5.indef
          else .ok (l.set p { a with name := nn, dirty := true, created := false })
            h5.indef := by
      unfold NC4_rename_att_model
      simp [hlen', hnw, h1, h2, hget']
    have hcond : ¬(h5.indef = false ∧ a.name.length < nn.length ∧ h5.classic = true) := by
      rcases hsafe with h | h | h
      · rw [h]
        rintro ⟨hco, -⟩
        cases hco
      · rintro ⟨-, hco, -⟩
        omega
      · rw [h]
        rintro ⟨-, -, hco⟩
        cases hco
    refine ⟨by rw [heval, if_neg hcond], ncindexlookup_set_new hnonn hp rfl,
      ncindexlookup_set_old ?_ honly'⟩
    simpa using hnm_ne

/-- C8 witness: with atts "a","b", renaming "a" to "b" fails
NC_ENAMEINUSE; renaming absent "x" fails NC_ENOTATT; in classic mode
outside define mode renaming "a" to the longer "aa" fails
NC_ENOTINDEFINE; and in define mode renaming "a" to "c" keeps id 0 and
makes the record reachable only under "c". -/
theorem C8_rename_witness :
    (NC4_rename_att_model ⟨true, false, false, 1, "v", 2, 1⟩
        [⟨"a", 0, .tint, 1, some [1], false, false⟩,
         ⟨"b", 1, .tint, 1, some [2], false, false⟩] "a" "b"
      = .err NC_ENAMEINUSE
          [⟨"a", 0, .tint, 1, some [1], false, false⟩,
           ⟨"b", 1, .tint, 1, some [2], false, false⟩] false) ∧
    (NC4_rename_att_model ⟨true, false, false, 1, "v", 2, 1⟩
        [⟨"a", 0, .tint, 1, some [1], false, false⟩,
         ⟨"b", 1, .tint, 1, some [2], false, false⟩] "x" "c"
      = .err NC_ENOTATT
          [⟨"a", 0, .tint, 1, some [1], false, false⟩,
           ⟨"b", 1, .tint, 1, some [2], false, false⟩] false) ∧
    (NC4_rename_att_model ⟨true, false, false, 1, "v", 2, 1⟩
        [⟨"a", 0, .tint, 1, some [1], false, false⟩,
         ⟨"b", 1, .tint, 1, some [2], false, false⟩] "a" "aa"
      = .err NC_ENOTINDEFINE
          [⟨"a", 0, .tint, 1, some [1], false, false⟩,
           ⟨"b", 1, .tint, 1, some [2], false, false⟩] false) ∧
    (NC4_rename_att_model ⟨true, true, false, 1, "v", 2, 1⟩
        [⟨"a", 0, .tint, 1, some [1], false, false⟩,
         ⟨"b", 1, .tint, 1, some [2], false, false⟩] "a" "c"
      = .ok [⟨"c", 0, .tint, 1, some [1], true, false⟩,
             ⟨"b", 1, .tint, 1, some [2], false, false⟩] true ∧
     ncindexlookup [⟨"c", 0, .tint, 1, some [1], true, false⟩,
             ⟨"b", 1, .tint, 1, some [2], false, false⟩] "c"
       = some ⟨"c", 0, .tint, 1, some [1], true, false⟩ ∧
     ncindexlookup [⟨"c", 0, .tint, 1, some [1], true, false⟩,
             ⟨"b", 1, .tint, 1, some [2], false, false⟩] "a" = none) := by
  refine ⟨?_, ?_, ?_, ?_⟩
  · exact (C8_rename_att ⟨true, false, false, 1, "v", 2, 1⟩
      [⟨"a", 0, .tint, 1, some [1], false, false⟩,
       ⟨"b", 1, .tint, 1, some [2], false, false⟩] "a" "b" rfl (by decide)).1
      (by decide)
  · exact (C8_rename_att ⟨true, false, false, 1, "v", 2, 1⟩
      [⟨"a", 0, .tint, 1, some [1], false, false⟩,
       ⟨"b", 1, .tint, 1, some [2], false, false⟩] "x" "c" rfl (by decide)).2.1
      (by decide) (by decide)
  · exact ((C8_rename_att ⟨true, false, false, 1, "v", 2, 1⟩
      [⟨"a", 0, .tint, 1, some [1], false, false⟩,
       ⟨"b", 1, .tint, 1, some [2], false, false⟩] "a" "aa" rfl (by decide)).2.2.1
      0 ⟨"a", 0, .tint, 1, some [1], false, false⟩
      (by decide) (by decide) (by decide) rfl rfl).mpr (by decide)
  · have h := (C8_rename_att ⟨true, true, false, 1, "v", 2, 1⟩
      [⟨"a", 0, .tint, 1, some [1], false, false⟩,
       ⟨"b", 1, .tint, 1, some [2], false, false⟩] "a" "c" rfl (by decide)).2.2.2
      0 ⟨"a", 0, .tint, 1, some [1], false, false⟩
      (by decide) (by decide) (by decide) (Or.inl rfl) (by decide)
    simpa using h

/-- C10: a metadata-only get (NULL data pointer), as issued by
NC4_inq_att and NC4_inq_attid, of an existing non-reserved attribute
performs no conversion and no character-class check: it succeeds with
the stored file type, length and id, for every requested memory type,
and in particular never returns NC_ERANGE or NC_ECHAR. -/
theorem C10_metadata_only_get (h5 : H5) (isRG : Bool) (l : List AttRec)
    (nm : String) (att : AttRec)
    (hres : isRG = true → reservedNameOnly nm = false)
    (hlook : ncindexlookup l nm = some att)
    (ht : att.typeid ≠ .tnat) :
    NC4_inq_att_model h5 isRG l nm
      = ⟨NC_NOERR, some att.typeid, some att.len, none, none⟩ ∧
    NC4_inq_attid_model h5 isRG l nm
      = ⟨NC_NOERR, none, none, some att.id, none⟩ ∧
    (∀ (mt : NcType) (wt wl wa : Bool),
      nc4_get_att_found h5.classic att mt wt wl wa false
        = ⟨NC_NOERR, if wt then some att.typeid else none,
           if wl then some att.len else none,
           if wa then some att.id else none, none⟩) := by
  have hgen : ∀ (mt : NcType) (wt wl wa : Bool),
      nc4_get_att_found h5.classic att mt wt wl wa false
        = ⟨NC_NOERR, if wt then some att.typeid else none,
           if wl then some att.len else none,
           if wa then some att.id else none, none⟩ := by
    intro mt wt wl wa
    have hsub : (if mt = NcType.tnat then att.typeid else mt) ≠ NcType.tnat := by
      by_cases h : mt = NcType.tnat
      · simpa [h] using ht
      · rw [if_neg h]
        exact h
    obtain ⟨n, hn⟩ := typelen_isSome hsub
    unfold nc4_get_att_found
    by_cases hz : att.len = 0
    · simp [hz]
    · simp [hz, hn]
  have hint : ∀ (mt : NcType) (wt wl wa wd : Bool),
      nc4_get_att_model h5 isRG l nm mt wt wl wa wd
        = nc4_get_att_found h5.classic att mt wt wl wa wd := by
    intro mt wt wl wa wd
    unfold nc4_get_att_model
    cases hrg : isRG
    · simp [hlook]
    · simp [hres hrg, hlook]
  refine ⟨?_, ?_, hgen⟩
  · unfold NC4_inq_att_model
    rw [hint]
    simpa using hgen .tnat true true false
  · unfold NC4_inq_attid_model
    rw [hint]
    simpa using hgen .tnat false false true

/-- C10 witness: metadata-only queries on an NC_SHORT attribute of
length 2 with id 3 return its stored type, length and id with
NC_NOERR. -/
theorem C10_metadata_only_witness :
    NC4_inq_att_model ⟨true, true, false, 1, "v", 2, 1⟩ false
        [⟨"a", 3, .tshort, 2, some [1, 2], false, false⟩] "a"
      = ⟨NC_NOERR, some .tshort, some 2, none, none⟩ ∧
    NC4_inq_attid_model ⟨true, true, false, 1, "v", 2, 1⟩ false
        [⟨"a", 3, .tshort, 2, some [1, 2], false, false⟩] "a"
      = ⟨NC_NOERR, none, none, some 3, none⟩ ∧
    (∀ (mt : NcType) (wt wl wa : Bool),
      nc4_get_att_found true ⟨"a", 3, .tshort, 2, some [1, 2], false, false⟩
          mt wt wl wa false
        = ⟨NC_NOERR, if wt then some .tshort else none,
           if wl then some 2 else none,
           if wa then some 3 else none, none⟩) := by
  have h := C10_metadata_only_get ⟨true, true, false, 1, "v", 2, 1⟩ false
    [⟨"a", 3, .tshort, 2, some [1, 2], false, false⟩] "a"
    ⟨"a", 3, .tshort, 2, some [1, 2], false, false⟩
    (fun hc => by cases hc) (by decide) (by decide)
  simpa using h

end Netcdf
